import Mathlib

/-!
Verification development for the AAC pageset format-adapter layer
(`gridset_processor.py`, `opml_processor.py`).

The Python sources are shallowly embedded: XML elements become records
holding exactly the data the Python code reads from them, character
scanning loops become folds over `List Char`, and Python dictionaries
become association lists with `List.lookup`.  Python's `str.strip` /
`str.isspace` are modelled over the ASCII whitespace characters the
development exercises.
-/

/-- ASCII whitespace, as recognised by Python's `str.isspace`/`str.strip`
on the character range exercised here (space, tab, newline, carriage
return, vertical tab, form feed). -/
def isSpaceChar (c : Char) : Bool :=
  c == ' ' || c == '\t' || c == '\n' || c == '\r' || c == Char.ofNat 11 || c == Char.ofNat 12

/-- Python `s.isspace()`: nonempty and all characters whitespace. -/
def pyIsSpaceStr (s : String) : Bool :=
  !s.data.isEmpty && s.data.all isSpaceChar

/-- Python `s.strip()`: drop leading and trailing whitespace. -/
def pyStrip (s : String) : String :=
  ⟨((s.data.dropWhile isSpaceChar).reverse.dropWhile isSpaceChar).reverse⟩

/-- Python `" ".join(ws)`. -/
def pyJoinSpace : List String → String
  | [] => ""
  | [w] => w
  | w :: ws => w ++ " " ++ pyJoinSpace ws

/-! ## The reinjection tokenizer of `_update_element_with_translation`

The Python loop scans the translated string character by character,
accumulating `current_word` and appending `(word, is_space)` pairs to
`words`.  `tokStep` is one iteration of that loop; `tokenizePy` is the
whole loop including the trailing `if current_word` flush. -/

/-- Whether the last token already emitted is the space token, i.e. the
Python test `words and words[-1][0] == " "` (negation of the guard on the
lone-space branch). -/
def lastIsSpaceTok (ws : List (String × Bool)) : Bool :=
  match ws.getLast? with
  | some t => t.1 == " "
  | none => false

/-- One iteration of the character loop in
`_update_element_with_translation`.  State is `(words, current_word)`. -/
def tokStep (st : List (String × Bool) × String) (c : Char) : List (String × Bool) × String :=
  let (ws, cur) := st
  if isSpaceChar c then
    if cur ≠ "" then (ws ++ [(cur, false), (" ", true)], "")
    else if lastIsSpaceTok ws then (ws, "")
    else (ws ++ [(" ", true)], "")
  else (ws, cur.push c)

/-- The full tokenizer of `_update_element_with_translation`:
run the loop over all characters, then flush the pending word. -/
def tokenizePy (s : String) : List (String × Bool) :=
  let r := s.data.foldl tokStep ([], "")
  if r.2 ≠ "" then r.1 ++ [(r.2, false)] else r.1

/-- Tail of the tokenizer loop, starting from an arbitrary pending word
`cur` and a flag `b` recording whether the token list so far ends in a
space token.  Used to reason about `tokenizePy` by induction. -/
def tokAux : String → Bool → List Char → List (String × Bool)
  | cur, _, [] => if cur ≠ "" then [(cur, false)] else []
  | cur, b, c :: cs =>
    if isSpaceChar c then
      if cur ≠ "" then (cur, false) :: (" ", true) :: tokAux "" true cs
      else if b then tokAux "" true cs
      else (" ", true) :: tokAux "" true cs
    else tokAux (cur.push c) b cs

/-- The spec's description of the tokenizer ("Reinjection" in §4.2): every
maximal run of non-space characters becomes one word token, every maximal
run of whitespace becomes one space token. -/
def specTokens : List Char → List (String × Bool)
  | [] => []
  | c :: cs =>
    if isSpaceChar c then
      (" ", true) :: specTokens (cs.dropWhile isSpaceChar)
    else
      (⟨c :: cs.takeWhile (fun x => !isSpaceChar x)⟩, false) ::
        specTokens (cs.dropWhile (fun x => !isSpaceChar x))
termination_by l => l.length
decreasing_by
  all_goals
    have key : ∀ (p : Char → Bool) (l : List Char), (l.dropWhile p).length ≤ l.length := by
      intro p l
      induction l with
      | nil => simp [List.dropWhile]
      | cons a l ih =>
        rw [List.dropWhile_cons]
        split
        · exact Nat.le_succ_of_le ih
        · simp
    exact Nat.lt_succ_of_le (key _ _)

/-- No two adjacent space tokens. -/
def noAdjSpace : List (String × Bool) → Bool
  | [] => true
  | [_] => true
  | x :: y :: rest => (!(x.2 && y.2)) && noAdjSpace (y :: rest)

/-! ## Field extraction and reinjection
(`_extract_text_and_metadata_from_element` / `_update_element_with_translation`)

A text-parameter field is the sequence of its `<s>` style-group elements;
each style-group carries an attribute set and a sequence of `<r>` raw-text
runs whose text may be absent (`None`). -/

/-- An `<r>` raw-text run. -/
structure RunE where
  text : Option String
deriving DecidableEq

/-- An `<s>` style-group: its attributes and its `<r>` runs. -/
structure SElemE where
  attrs : List (String × String)
  runs : List RunE
deriving DecidableEq

/-- A text-parameter field: the `<s>` children of the parameter element. -/
abbrev FieldE := List SElemE

/-- The `(trimmedText, isSpaceOnly)` tuples one style-group contributes. -/
def partsOfS (s : SElemE) : List (String × Bool) :=
  s.runs.filterMap fun r =>
    r.text.map fun t =>
      let isSp := pyIsSpaceStr t
      (if isSp then "" else pyStrip t, isSp)

/-- The flat, order-preserving parts sequence of
`_extract_text_and_metadata_from_element` (empty-text tuples included). -/
def extractParts : FieldE → List (String × Bool)
  | [] => []
  | s :: rest => partsOfS s ++ extractParts rest

/-- The per-style-group metadata sequence. -/
def extractMetadata (f : FieldE) : List (List (String × String)) :=
  f.map (·.attrs)

/-- The translatable string: non-empty parts joined with single spaces. -/
def extractTranslatable (f : FieldE) : String :=
  pyJoinSpace (((extractParts f).filter (fun p => p.1 ≠ "")).map Prod.fst)

/-- `_extract_text_and_metadata_from_element`: returns
`(translatableString, metadataSequence, originalPartsSequence)`. -/
def extractTextAndMetadata (f : FieldE) :
    String × List (List (String × String)) × List (String × Bool) :=
  (extractTranslatable f, extractMetadata f, extractParts f)

/-- One rebuilt `<s>` element for the token at position `i`: the
attributes come from `metadata[i]` by positional index (nothing past the
end), and the single `<r>` run holds the word or a CDATA space. -/
def rebuildS (metadata : List (List (String × String))) (i : Nat) (tok : String × Bool) : SElemE :=
  { attrs := metadata.getD i [], runs := [{ text := some (if tok.2 then " " else tok.1) }] }

/-- `_update_element_with_translation`: clear the field and rebuild one
style-group per token of the re-tokenized translated string.  The result
is the rebuilt field (its new `<s>` children). -/
def updateElementWithTranslation (translated : String)
    (metadata : List (List (String × String))) : FieldE :=
  (tokenizePy translated).enum.map fun p => rebuildS metadata p.1 p.2

/-- Adjacent whitespace characters inside a string. -/
def adjSpacePair : List Char → Bool
  | a :: b :: rest => (isSpaceChar a && isSpaceChar b) || adjSpacePair (b :: rest)
  | _ => false

/-- Adjacent space-only parts in a parts sequence. -/
def adjSpaceParts : List (String × Bool) → Bool
  | p :: q :: rest => (p.2 && q.2) || adjSpaceParts (q :: rest)
  | _ => false

/-- The claim's hypothesis "the original run parts contain no internal
double-spaces": no part's text holds two adjacent whitespace characters,
and no two consecutive parts are both space-only. -/
def noInternalDoubleSpaces (parts : List (String × Bool)) : Bool :=
  parts.all (fun p => !adjSpacePair p.1.data) && !adjSpaceParts parts

/-- A word part: a non-empty, whitespace-free text with the space flag
unset. -/
def isWordPart (p : String × Bool) : Bool :=
  !p.2 && p.1 ≠ "" && p.1.data.all (fun c => !isSpaceChar c)

/-- A space part: empty text with the space flag set. -/
def isSpacePart (p : String × Bool) : Bool :=
  p.2 && p.1 == ""

/-- A parts sequence that strictly alternates word and space parts,
beginning and ending with a word part (the shape the Gridset writer
itself produces). -/
def altParts : List (String × Bool) → Bool
  | [] => true
  | [p] => isWordPart p
  | p :: q :: rest => isWordPart p && isSpacePart q && !rest.isEmpty && altParts rest

/-! ## `GridsetProcessor.process_files`

The extracted gridset directory is modelled by the data the walk reads:
the parseable `grid.xml` files under `Grids/` (a missing `Grids`
directory is `grids = none`; grid files whose parse raises are skipped by
the `except` and so are simply not listed), and the parseable
`Settings0/settings.xml` (`none` when absent or unparseable).  Element
text that may be absent (`None`) is an `Option String`. -/

/-- One parseable `grid.xml`, as read by `process_files`: the texts of
its `.//Caption` elements, its `.//Parameter[@Key='text']` fields, and
the texts of its `.//WordListItem/Text//r` elements. -/
structure GsGridP where
  captions : List (Option String)
  textParams : List FieldE
  wordRs : List (Option String)
deriving DecidableEq

/-- The parseable `Settings0/settings.xml`: the text of its
`Description` element (`none` when the element is absent or has no
text). -/
structure SettingsX where
  description : Option String
deriving DecidableEq

/-- The extracted gridset directory handed to `process_files`. -/
structure GsDir where
  name : String
  grids : Option (List (String × GsGridP))
  settings : Option SettingsX
deriving DecidableEq

/-- Python `text in translations` on the translation dictionary,
modelled as an association list. -/
def txtMatches (tr : List (String × String)) (t : String) : Bool :=
  (tr.lookup t).isSome

/-- Whether processing `settings.xml` sets `modified`: either the
stripped `Description` text is a key of the map, or the map carries
`target_lang` (the `Language` element is then created/overwritten). -/
def settingsModified (s : SettingsX) (tr : List (String × String)) : Bool :=
  (match s.description with
   | some t => t ≠ "" && txtMatches tr (pyStrip t)
   | none => false)
  || (tr.lookup "target_lang").isSome

/-- Whether one `Caption` is replaced: text present and non-empty after
stripping, and the stripped text is a key. -/
def captionModified (c : Option String) (tr : List (String × String)) : Bool :=
  match c with
  | some t => t ≠ "" && pyStrip t ≠ "" && txtMatches tr (pyStrip t)
  | none => false

/-- Whether one text-parameter field is reinjected: its joined
translatable text is non-blank and is a key. -/
def fieldModified (f : FieldE) (tr : List (String × String)) : Bool :=
  pyStrip (extractTranslatable f) ≠ "" && txtMatches tr (extractTranslatable f)

/-- Whether one word-list `r` element is replaced. -/
def wordRModified (w : Option String) (tr : List (String × String)) : Bool :=
  match w with
  | some t => t ≠ "" && pyStrip t ≠ "" && txtMatches tr (pyStrip t)
  | none => false

/-- Whether the walk over one `grid.xml` sets `modified`. -/
def gridModified (g : GsGridP) (tr : List (String × String)) : Bool :=
  g.captions.any (captionModified · tr) || g.textParams.any (fieldModified · tr)
    || g.wordRs.any (wordRModified · tr)

/-- Index of the last occurrence of `c` in `cs` (−1 when absent), as in
CPython's `rfind`. -/
def lastIdx (c : Char) (cs : List Char) : Int :=
  cs.enum.foldl (fun acc p => if p.2 == c then Int.ofNat p.1 else acc) (-1)

/-- `os.path.splitext(p)[0]` (posix): split at the last dot of the final
path component unless only leading dots precede it. -/
def pySplitextBase (s : String) : String :=
  let cs := s.data
  let sepIdx := lastIdx '/' cs
  let dotIdx := lastIdx '.' cs
  if sepIdx < dotIdx then
    let start := (sepIdx + 1).toNat
    let leading := (cs.drop start).take (dotIdx.toNat - start)
    if leading.all (· == '.') then s else ⟨cs.take dotIdx.toNat⟩
  else s

/-- `GridsetProcessor.process_files`.  Discovery mode (`tr? = none`)
collects texts and returns `none`; apply mode returns the path of the
repackaged container iff any walk step set `modified`.  The path appends
`_<target_lang>` (default `"unknown"`) to the directory's base name.
`settingsStepModified` is the settings-file contribution to `modified`
(nothing when the file is absent or unparseable). -/
def settingsStepModified (d : GsDir) (tr : List (String × String)) : Bool :=
  match d.settings with
  | some s => settingsModified s tr
  | none => false

/-- `GridsetProcessor.process_files` proper; see `settingsStepModified`. -/
def processFiles (d : GsDir) (tr? : Option (List (String × String))) : Option String :=
  match d.grids with
  | none => none
  | some gs =>
    match tr? with
    | none => none
    | some tr =>
      if settingsStepModified d tr || gs.any (fun pr => gridModified pr.2 tr) then
        some (pySplitextBase d.name ++ "_" ++ ((tr.lookup "target_lang").getD "unknown") ++ ".gridset")
      else none

/-- The translatable strings the settings step exposes to matching. -/
def settingsTexts (s : SettingsX) : List String :=
  match s.description with
  | some t => if t ≠ "" then [pyStrip t] else []
  | none => []

/-- The translatable strings one `grid.xml` exposes to matching (exactly
the strings discovery mode collects from it). -/
def gridTexts (g : GsGridP) : List String :=
  g.captions.filterMap (fun c =>
    match c with
    | some t => if t ≠ "" && pyStrip t ≠ "" then some (pyStrip t) else none
    | none => none)
  ++ g.textParams.filterMap (fun f =>
      if pyStrip (extractTranslatable f) ≠ "" then some (extractTranslatable f) else none)
  ++ g.wordRs.filterMap (fun w =>
      match w with
      | some t => if t ≠ "" && pyStrip t ≠ "" then some (pyStrip t) else none
      | none => none)

/-- All translatable strings of the directory, as collected by the
discovery walk (nothing is collected when `Grids` is absent). -/
def translatableStrings (d : GsDir) : List String :=
  match d.grids with
  | none => []
  | some gs =>
    (match d.settings with
     | some s => settingsTexts s
     | none => []) ++ gs.flatMap (fun pr => gridTexts pr.2)

/-! ## `GridsetProcessor.create_translated_file` and the no-context walk of
`GridsetProcessor.extract_texts`

Both walk the same three element kinds of each `grid.xml`: the root
`Name` attribute, the `CaptionAndImage/Caption` texts, and the
`WordList/Items/WordListItem/Text` texts. -/

/-- One parseable `grid.xml` as read by `create_translated_file` /
`extract_texts(include_context=False)`. -/
structure GsGridT where
  name : Option String
  captions : List (Option String)
  wordTexts : List (Option String)
deriving DecidableEq

/-- Whether `create_translated_file` modifies one grid: `Name` is a key
(untouched by `strip`), or a caption/word text is present and its
stripped text is a key. -/
def gridTModified (g : GsGridT) (tr : List (String × String)) : Bool :=
  (match g.name with
   | some n => txtMatches tr n
   | none => false)
  || g.captions.any (fun c =>
      match c with
      | some t => t ≠ "" && txtMatches tr (pyStrip t)
      | none => false)
  || g.wordTexts.any (fun w =>
      match w with
      | some t => t ≠ "" && txtMatches tr (pyStrip t)
      | none => false)

/-- Base-name preparation of `create_translated_file`: after dropping the
extension, drop a trailing `_`-separated component of at most five
characters (an existing language suffix). -/
def ctfBase (p : String) : String :=
  let base := pySplitextBase p
  if base.data.contains '_' then
    let parts := base.splitOn "_"
    if (parts.getLastD "").length ≤ 5 then
      String.intercalate "_" parts.dropLast
    else base
  else base

/-- `GridsetProcessor.create_translated_file`: translate the grids; when
anything changed, require a non-empty `target_lang` (otherwise abort with
`None` and no file), and name the output from the prepared base name. -/
def createTranslatedFile (filePath : String) (grids : List GsGridT)
    (tr : List (String × String)) : Option String :=
  let modified := grids.any (gridTModified · tr)
  if modified then
    match tr.lookup "target_lang" with
    | none => none
    | some tl => if tl = "" then none else some (ctfBase filePath ++ "_" ++ tl ++ ".gridset")
  else none

/-- The texts one grid contributes in
`extract_texts(include_context=False)`: the `Name` attribute (raw), then
stripped caption texts, then stripped word-list texts, skipping blanks. -/
def extractGridTexts (g : GsGridT) : List String :=
  (match g.name with
   | some n => if n ≠ "" then [n] else []
   | none => [])
  ++ g.captions.filterMap (fun c =>
      match c with
      | some t => if t ≠ "" && pyStrip t ≠ "" then some (pyStrip t) else none
      | none => none)
  ++ g.wordTexts.filterMap (fun w =>
      match w with
      | some t => if t ≠ "" && pyStrip t ≠ "" then some (pyStrip t) else none
      | none => none)

/-- `GridsetProcessor.extract_texts(path, include_context=False)`:
collect the texts of every parseable grid and deduplicate
(`list(set(texts))`; the set's iteration order is arbitrary, so the
result is modelled up to the dedup order). -/
def gridsetExtractTextsNoContext (grids : Option (List GsGridT)) : List String :=
  match grids with
  | none => []
  | some gs => (gs.flatMap extractGridTexts).dedup

/-! ## `GridsetProcessor._map_language_code` -/

/-- The right-to-left language list. -/
def rtlLanguages : List String := ["ar", "fa", "ur", "yi", "dv", "ha", "ps"]

/-- The fixed code table (`language_map`). -/
def languageMap : List (String × String) :=
  [("af", "af-ZA"), ("ar", "ar-SA"), ("eu", "eu-ES"), ("ca", "ca-ES"),
   ("hr", "hr-HR"), ("cs", "cs-CZ"), ("da", "da-DK"), ("nl", "nl-NL"),
   ("en", "en-GB"), ("fo", "fo-FO"), ("fi", "fi-FI"), ("fr", "fr-FR"),
   ("de", "de-DE"), ("el", "el-GR"), ("he", "he-IL"), ("it", "it-IT"),
   ("nb", "nb-NO"), ("no", "nb-NO"), ("pl", "pl-PL"), ("pt", "pt-PT"),
   ("ru", "ru-RU"), ("sk", "sk-SK"), ("sl", "sl-SI"), ("es", "es-ES"),
   ("sv", "sv-SE"), ("uk", "uk-UA"), ("cy", "cy-GB"), ("zh", "zh-CN"),
   ("ja", "ja-JP"), ("ko", "ko-KR"),
   ("af-ZA", "af-ZA"), ("ar-SA", "ar-SA"), ("eu-ES", "eu-ES"),
   ("ca-ES", "ca-ES"), ("hr-HR", "hr-HR"), ("cs-CZ", "cs-CZ"),
   ("da-DK", "da-DK"), ("nl-BE", "nl-BE"), ("nl-NL", "nl-NL"),
   ("en-AU", "en-AU"), ("en-CA", "en-CA"), ("en-NZ", "en-NZ"),
   ("en-ZA", "en-ZA"), ("en-GB", "en-GB"), ("en-US", "en-US"),
   ("fo-FO", "fo-FO"), ("fi-FI", "fi-FI"), ("fr-CA", "fr-CA"),
   ("fr-FR", "fr-FR"), ("de-AT", "de-AT"), ("de-DE", "de-DE"),
   ("el-GR", "el-GR"), ("he-IL", "he-IL"), ("it-IT", "it-IT"),
   ("nb-NO", "nb-NO"), ("pl-PL", "pl-PL"), ("pt-BR", "pt-BR"),
   ("pt-PT", "pt-PT"), ("ru-RU", "ru-RU"), ("sk-SK", "sk-SK"),
   ("sl-SI", "sl-SI"), ("es-ES", "es-ES"), ("es-US", "es-US"),
   ("sv-SE", "sv-SE"), ("uk-UA", "uk-UA"), ("cy-GB", "cy-GB"),
   ("zh-CN", "zh-CN"), ("ja-JP", "ja-JP"), ("ko-KR", "ko-KR")]

/-- `GridsetProcessor._map_language_code`: right-to-left codes other than
`"ar"`/`"he"` short-circuit to `"ar-SA"`; everything else is looked up in
the table, defaulting to itself. -/
def mapLanguageCode (langCode : String) : String :=
  if rtlLanguages.contains langCode && langCode ≠ "ar" && langCode ≠ "he" then "ar-SA"
  else ((languageMap.lookup langCode).getD langCode)

/-- Region-qualified vendor codes: `xx-YY`. -/
def isRegionQualified (s : String) : Bool :=
  match s.data with
  | [c1, c2, h, c4, c5] => h == '-' && c1.isLower && c2.isLower && c4.isUpper && c5.isUpper
  | _ => false

/-! ## The interchange model (`tree_structure.py`, not under `src/`)

Modelled from the spec: `tree_structure.py` is not part of the provided
sources; the entity records below follow §3 of the spec and the
constructor calls visible in the adapters. -/

/-- Button kinds the adapters construct. -/
inductive ButtonType where
  | speak
  | navigate
deriving DecidableEq

/-- Modelled from the spec: `AACButton` of the missing
`tree_structure.py` — id, label, vocalization, type, grid position, and
(for Navigate) the target page id. -/
structure AACButton where
  id : String
  label : String
  vocalization : String
  type : ButtonType
  position : Int × Int
  targetPageId : Option String
deriving DecidableEq

/-- Modelled from the spec: `AACPage` of the missing `tree_structure.py`
— id, name, grid size, optional parent back-reference, and the owned
buttons in order. -/
structure AACPage where
  id : String
  name : String
  gridSize : Nat × Nat
  parentId : Option String
  buttons : List AACButton
deriving DecidableEq

/-- Modelled from the spec: `AACTree` of the missing `tree_structure.py`
— a mapping from page id to page (kept in insertion order) plus the
optional `rootId`. -/
structure AACTree where
  pages : List (String × AACPage)
  rootId : Option String
deriving DecidableEq

/-- Modelled from the spec: `AACTree.add_page` — store the page in the
mapping under its own id. -/
def addPage (t : AACTree) (p : AACPage) : AACTree :=
  { t with pages := t.pages ++ [(p.id, p)] }

/-- The §3 invariant: a set `rootId` names a key of the page mapping. -/
def treeInvariant (t : AACTree) : Prop :=
  ∀ r, t.rootId = some r → (t.pages.lookup r).isSome = true

/-! ## `GridsetProcessor.load_into_tree` -/

/-- A `Command` element: its `ID` attribute and the text of its
`Parameter[@Key='grid']` child (`none` when the element is absent or has
no text). -/
structure GsCommand where
  id : String
  gridParam : Option String
deriving DecidableEq

/-- A cell's `Content` element. -/
structure GsContent where
  caption : Option String
  commands : List GsCommand
deriving DecidableEq

/-- A `Cell` element: `X`/`Y` attributes (already parsed to integers —
a cell whose attribute fails `int()` makes the whole grid file raise and
be skipped) and its optional `Content`. -/
structure GsCell where
  x : Int
  y : Int
  content : Option GsContent
deriving DecidableEq

/-- A `WordListItem`: the text of its `Text` element. -/
structure GsWordItem where
  text : Option String
deriving DecidableEq

/-- One parseable `grid.xml` as read by `load_into_tree`. -/
structure GsGrid where
  rows : Nat
  cols : Nat
  cells : List GsCell
  wordItems : List GsWordItem
deriving DecidableEq

/-- The extracted gridset container as read by `load_into_tree`:
the parseable grids keyed by directory name, and the text of the
settings `StartGrid` element (`none` when settings/element/text is
absent). -/
structure GsContainer where
  grids : Option (List (String × GsGrid))
  startGrid : Option String
deriving DecidableEq

/-- The `Jump.To` command scan: each `Jump.To` command with a non-empty
`grid` parameter turns the button into a Navigate button targeting that
literal text. -/
def navUpd (b : AACButton) (cmd : GsCommand) : AACButton :=
  if cmd.id = "Jump.To" then
    match cmd.gridParam with
    | some t => if t ≠ "" then { b with type := ButtonType.navigate, targetPageId := some t } else b
    | none => b
  else b

/-- One cell becomes a button iff it has content with a non-empty
caption; label and vocalization are both the stripped caption. -/
def mkCellButton (dirName : String) (cell : GsCell) : Option AACButton :=
  match cell.content with
  | none => none
  | some content =>
    match content.caption with
    | none => none
    | some cap =>
      if cap = "" then none
      else
        let b0 : AACButton :=
          { id := dirName ++ "_button_" ++ toString cell.x ++ "_" ++ toString cell.y
            label := pyStrip cap
            vocalization := pyStrip cap
            type := ButtonType.speak
            position := (cell.x, cell.y)
            targetPageId := none }
        some (content.commands.foldl navUpd b0)

/-- One word-list item becomes a (0,0) Speak button with the raw text in
its id and the stripped text as label and vocalization. -/
def mkWordButton (dirName : String) (it : GsWordItem) : Option AACButton :=
  match it.text with
  | none => none
  | some t =>
    if t = "" then none
    else
      some
        { id := dirName ++ "_word_" ++ t
          label := pyStrip t
          vocalization := pyStrip t
          type := ButtonType.speak
          position := (0, 0)
          targetPageId := none }

/-- One grid directory becomes a page named after the directory, with
cell buttons then word-list buttons. -/
def loadGrid (dirName : String) (g : GsGrid) : AACPage :=
  { id := dirName
    name := dirName
    gridSize := ((if g.rows = 0 then 1 else g.rows), (if g.cols = 0 then 1 else g.cols))
    parentId := none
    buttons := g.cells.filterMap (mkCellButton dirName) ++ g.wordItems.filterMap (mkWordButton dirName) }

/-- `GridsetProcessor.load_into_tree`: an absent `Grids` directory yields
the empty tree; otherwise every parseable grid is added, and `rootId` is
set to the settings `StartGrid` text (unchecked against the loaded
pages) when that text is present and non-empty. -/
def gridsetLoadIntoTree (c : GsContainer) : AACTree :=
  match c.grids with
  | none => { pages := [], rootId := none }
  | some gs =>
    let t0 := gs.foldl (fun t pr => addPage t (loadGrid pr.1 pr.2)) { pages := [], rootId := none }
    { t0 with
      rootId := match c.startGrid with
        | some t => if t ≠ "" then some t else none
        | none => none }

/-! ## The Outline (OPML) adapter

An `<outline>` element is its optional `text` attribute plus its child
outlines.  `uuid.uuid4()` page/button ids are modelled by a
deterministic fresh-name supply `"id0", "id1", …` issued in the same
order as the Python calls; no claim depends on the identifier values
themselves.  Python's bounded recursion (`sys.recursionlimit`, ~1000) is
modelled by a fuel parameter of 1000. -/

/-- An `<outline>` element. -/
inductive Outline where
  | node (text : Option String) (children : List Outline)

/-- The `text` attribute. -/
def Outline.textOf : Outline → Option String
  | .node t _ => t

/-- The child `<outline>` elements. -/
def Outline.childrenOf : Outline → List Outline
  | .node _ cs => cs

/-- A parsed OPML document: the list of `body`'s `<outline>` children
(`none` when the `body` element is missing). -/
structure OpmlDoc where
  body : Option (List Outline)

/-- `OPMLProcessor._extract_texts_from_element`: preorder collection of
non-blank stripped `text` attributes.  Fuel exhaustion (Python's
`RecursionError`) contributes nothing for that subtree; the claims never
reach depth 1000. -/
def extractTextsAux : Nat → List Outline → List String
  | 0, _ => []
  | fuel + 1, os =>
    os.flatMap fun o =>
      (match o.textOf with
       | some t => if t ≠ "" && pyStrip t ≠ "" then [pyStrip t] else []
       | none => []) ++ extractTextsAux fuel o.childrenOf

/-- `OPMLProcessor.extract_texts`: every occurrence is kept — there is no
deduplication and no `include_context` parameter on this adapter. -/
def opmlExtractTexts (doc : OpmlDoc) : List String :=
  match doc.body with
  | none => []
  | some outlines => extractTextsAux 1000 outlines

/-- State threaded through `load_into_tree`'s recursive
`process_outline`: the pages added so far via `tree.add_page` and the
fresh-id counter. -/
structure LoadSt where
  pages : List (String × AACPage)
  ctr : Nat

/-- Issue the next deterministic id (stands for `uuid.uuid4()`). -/
def freshId (st : LoadSt) : String × LoadSt :=
  ("id" ++ toString st.ctr, { st with ctr := st.ctr + 1 })

/-- `process_outline` of `OPMLProcessor.load_into_tree`: an outline with
a blank text yields no button; one with children yields a new page (its
children processed recursively, the page added to the tree) and a
Navigate button to it; a leaf yields a Speak button. -/
def processOutline : Nat → Outline → String → Int × Int → LoadSt → Option AACButton × LoadSt
  | 0, _, _, _, st => (none, st)
  | fuel + 1, o, parentPageId, pos, st =>
    let text := o.textOf.getD ""
    if text = "" then (none, st)
    else if o.childrenOf.isEmpty then
      let (bid, st1) := freshId st
      (some { id := bid, label := text, vocalization := text, type := ButtonType.speak,
              position := pos, targetPageId := none }, st1)
    else
      let (oid, st1) := freshId st
      let r := o.childrenOf.foldl
        (fun (acc : List AACButton × Nat × LoadSt) child =>
          let (b?, st') := processOutline fuel child oid (Int.ofNat acc.2.1, 0) acc.2.2
          (match b? with
           | some b => acc.1 ++ [b]
           | none => acc.1, acc.2.1 + 1, st'))
        ([], 0, st1)
      let page : AACPage :=
        { id := oid, name := text, gridSize := (o.childrenOf.length, 1),
          parentId := some parentPageId, buttons := r.1 }
      let st3 : LoadSt := { pages := r.2.2.pages ++ [(oid, page)], ctr := r.2.2.ctr }
      let (bid, st4) := freshId st3
      (some { id := bid, label := text, vocalization := text, type := ButtonType.navigate,
              position := pos, targetPageId := some oid }, st4)

/-- `OPMLProcessor.load_into_tree`: no `body` or no outlines yields the
empty tree; otherwise the synthetic Super-Root → Root → Main chain is
built around the first top-level outline, whose children populate the
Main page. -/
def opmlLoadIntoTree (doc : OpmlDoc) : AACTree :=
  match doc.body with
  | none => { pages := [], rootId := none }
  | some [] => { pages := [], rootId := none }
  | some (mainOutline :: _) =>
    let superRootId := "id0"
    let rootPageId := "id1"
    let rootButton : AACButton :=
      { id := "id2", label := "Root", vocalization := "Root", type := ButtonType.navigate,
        position := (0, 0), targetPageId := some rootPageId }
    let superRootPage : AACPage :=
      { id := superRootId, name := "Super Root", gridSize := (1, 1),
        parentId := none, buttons := [rootButton] }
    let mainText := mainOutline.textOf.getD "Main Page"
    let mainPageId := "id3"
    let mainButton : AACButton :=
      { id := "id4", label := mainText, vocalization := mainText, type := ButtonType.navigate,
        position := (0, 0), targetPageId := some mainPageId }
    let rootPage : AACPage :=
      { id := rootPageId, name := "Root", gridSize := (1, 1),
        parentId := some superRootId, buttons := [mainButton] }
    let r := mainOutline.childrenOf.foldl
      (fun (acc : List AACButton × Nat × LoadSt) child =>
        let (b?, st') := processOutline 1000 child mainPageId (Int.ofNat acc.2.1, 0) acc.2.2
        (match b? with
         | some b => acc.1 ++ [b]
         | none => acc.1, acc.2.1 + 1, st'))
      ([], 0, ({ pages := [], ctr := 5 } : LoadSt))
    let mainPage : AACPage :=
      { id := mainPageId, name := mainText, gridSize := (mainOutline.childrenOf.length, 1),
        parentId := some rootPageId, buttons := r.1 }
    { pages := r.2.2.pages
        ++ [(mainPageId, mainPage), (rootPageId, rootPage), (superRootId, superRootPage)],
      rootId := some superRootId }

/-- `process_page_buttons` of `OPMLProcessor.save_from_tree`: each button
becomes an outline carrying the button label; a Navigate button whose
target is in the page mapping recurses into the target page.  The result
is `none` when the recursion limit is hit (Python raises, writing
nothing). -/
def processPageButtons : Nat → AACTree → AACPage → Option (List Outline)
  | 0, _, _ => none
  | fuel + 1, tree, page =>
    page.buttons.foldr
      (fun b acc? =>
        match acc? with
        | none => none
        | some os =>
          let cs? :=
            if b.type = ButtonType.navigate then
              match b.targetPageId with
              | some tid =>
                match tree.pages.lookup tid with
                | some tp => processPageButtons fuel tree tp
                | none => some []
              | none => some []
            else some []
          match cs? with
          | none => none
          | some cs => some (Outline.node (some b.label) cs :: os))
      (some [])

/-- `OPMLProcessor.save_from_tree`: the outer `none` is an uncaught
exception (recursion limit); `some none` is a silent early return after
a debug print, with no file written; `some (some o)` is a written file
whose body holds the single main outline `o`. -/
def opmlSaveFromTree (tree : AACTree) : Option (Option Outline) :=
  match tree.rootId with
  | none => some none
  | some rid =>
    if rid = "" then some none
    else
      match tree.pages.lookup rid with
      | none => some none
      | some superRoot =>
        match superRoot.buttons with
        | [] => some none
        | rb :: _ =>
          if rb.type ≠ ButtonType.navigate then some none
          else
            match rb.targetPageId with
            | none => some none
            | some rpid =>
              if rpid = "" then some none
              else
                match tree.pages.lookup rpid with
                | none => some none
                | some rootPage =>
                  match rootPage.buttons with
                  | [] => some none
                  | mb :: _ =>
                    if mb.type ≠ ButtonType.navigate then some none
                    else
                      match mb.targetPageId with
                      | none => some none
                      | some mpid =>
                        if mpid = "" then some none
                        else
                          match tree.pages.lookup mpid with
                          | none => some none
                          | some mainPage =>
                            match processPageButtons 1000 tree mainPage with
                            | none => none
                            | some cs => some (some (Outline.node (some mainPage.name) cs))

/-- The disjunction of the early-return checks of `save_from_tree`:
the Super-Root → Root → Main anchor chain is absent or malformed. -/
def anchorChainBroken (t : AACTree) : Bool :=
  match t.rootId with
  | none => true
  | some rid =>
    if rid = "" then true
    else
      match t.pages.lookup rid with
      | none => true
      | some superRoot =>
        match superRoot.buttons with
        | [] => true
        | rb :: _ =>
          if rb.type ≠ ButtonType.navigate then true
          else
            match rb.targetPageId with
            | none => true
            | some rpid =>
              if rpid = "" then true
              else
                match t.pages.lookup rpid with
                | none => true
                | some rootPage =>
                  match rootPage.buttons with
                  | [] => true
                  | mb :: _ =>
                    if mb.type ≠ ButtonType.navigate then true
                    else
                      match mb.targetPageId with
                      | none => true
                      | some mpid =>
                        if mpid = "" then true
                        else (t.pages.lookup mpid).isNone

/-- The two-level outline example of §8:
`<outline text="Food"><outline text="Apple"/></outline>`. -/
def exDocFood : OpmlDoc :=
  ⟨some [Outline.node (some "Food") [Outline.node (some "Apple") []]]⟩

/-! ## Concrete inputs used by counterexamples and witnesses -/

/-- An OPML body with the same text on two sibling outlines. -/
def exDupDoc : OpmlDoc :=
  ⟨some [Outline.node (some "A") [], Outline.node (some "A") []]⟩

/-- A hand-edited tree whose root page has zero buttons. -/
def brokenChainTree : AACTree :=
  { pages := [("sr", { id := "sr", name := "Super Root", gridSize := (1, 1),
                       parentId := none, buttons := [] })],
    rootId := some "sr" }

/-- A container whose settings `StartGrid` names no loaded grid. -/
def exDanglingC : GsContainer := { grids := some [], startGrid := some "home" }

/-- A one-grid container whose `StartGrid` names the loaded grid. -/
def exC5Grid : GsContainer :=
  { grids := some [("p1", { rows := 1, cols := 1, cells := [], wordItems := [] })],
    startGrid := some "p1" }

/-- A one-grid container with a single captioned cell. -/
def exC10Grid : GsGrid :=
  { rows := 2, cols := 2,
    cells := [{ x := 0, y := 0, content := some { caption := some "Hello", commands := [] } }],
    wordItems := [] }

/-- The container holding `exC10Grid`. -/
def exC10 : GsContainer := { grids := some [("p1", exC10Grid)], startGrid := none }

/-- A field whose single run holds an internal single space. -/
def exSingleRunField : FieldE := [{ attrs := [], runs := [{ text := some "a b" }] }]

/-- A field alternating word and space runs (the shape the writer
produces). -/
def exAltField : FieldE :=
  [{ attrs := [("Image", "x")], runs := [{ text := some "hello" }] },
   { attrs := [], runs := [{ text := some " " }] },
   { attrs := [], runs := [{ text := some "world" }] }]

/-- A gridset directory with a settings file, no description and no
grids: nothing is translatable. -/
def exDirSettingsOnly : GsDir := { name := "book", grids := some [], settings := some { description := none } }

/-- A gridset directory without a settings file whose one grid holds one
caption. -/
def exDirHello : GsDir :=
  { name := "book",
    grids := some [("p1", { captions := [some "Hello"], textParams := [], wordRs := [] })],
    settings := none }

/-! # Theorems -/

/-! ## Shared helper lemmas -/

theorem lookup_isSome_iff_mem_keys {β : Type} (l : List (String × β)) (a : String) :
    (l.lookup a).isSome = true ↔ a ∈ l.map Prod.fst := by
  induction l with
  | nil => simp [List.lookup]
  | cons p rest ih =>
    obtain ⟨k, v⟩ := p
    by_cases hk : a = k
    · subst hk
      simp [List.lookup]
    · have hb : (a == k) = false := by simpa using hk
      simp [List.lookup, hb, ih, hk]

theorem foldl_addPage_pages (gs : List (String × GsGrid)) (t : AACTree) :
    (gs.foldl (fun t pr => addPage t (loadGrid pr.1 pr.2)) t).pages =
      t.pages ++ gs.map (fun pr => (pr.1, loadGrid pr.1 pr.2)) := by
  induction gs generalizing t with
  | nil => simp
  | cons pr rest ih =>
    rw [List.foldl_cons, ih]
    simp [addPage, loadGrid]

theorem navUpd_pres (b : AACButton) (cmd : GsCommand) :
    (navUpd b cmd).vocalization = b.vocalization ∧ (navUpd b cmd).label = b.label := by
  unfold navUpd
  split
  · split
    · split <;> simp
    · simp
  · simp

theorem navFoldl_pres (cmds : List GsCommand) :
    ∀ b : AACButton,
      (cmds.foldl navUpd b).vocalization = b.vocalization ∧
        (cmds.foldl navUpd b).label = b.label := by
  induction cmds with
  | nil => intro b; simp
  | cons c rest ih =>
    intro b
    rw [List.foldl_cons]
    have h1 := ih (navUpd b c)
    have h2 := navUpd_pres b c
    exact ⟨h1.1.trans h2.1, h1.2.trans h2.2⟩

/-! ## C5 — the `rootId` invariant after `loadIntoTree` -/

/-- C5 counterexample: the Gridset adapter copies the settings
`StartGrid` text into `rootId` without checking it against the loaded
pages, so a container whose `StartGrid` names no grid returns with a
dangling `rootId`. -/
theorem c5_counterexample :
    (gridsetLoadIntoTree exDanglingC).rootId = some "home" ∧
      (gridsetLoadIntoTree exDanglingC).pages.lookup "home" = none := by
  decide

/-- C5 amended: the Outline adapter always satisfies the invariant; the
Gridset adapter satisfies it exactly under the extra hypothesis that a
present, non-empty `StartGrid` text names one of the loaded grid
directories. -/
theorem c5_amended :
    (∀ doc : OpmlDoc, treeInvariant (opmlLoadIntoTree doc)) ∧
    (∀ c : GsContainer,
      (∀ gs s, c.grids = some gs → c.startGrid = some s → s ≠ "" → s ∈ gs.map Prod.fst) →
      treeInvariant (gridsetLoadIntoTree c)) := by
  constructor
  · intro doc r hr
    match hb : doc.body with
    | none => simp [opmlLoadIntoTree, hb] at hr
    | some [] => simp [opmlLoadIntoTree, hb] at hr
    | some (mainOutline :: rest) =>
      simp only [opmlLoadIntoTree, hb, Option.some.injEq] at hr
      subst hr
      rw [lookup_isSome_iff_mem_keys]
      simp [opmlLoadIntoTree, hb]
  · intro c hc r hr
    match hg : c.grids with
    | none => simp [gridsetLoadIntoTree, hg] at hr
    | some gs =>
      simp only [gridsetLoadIntoTree, hg] at hr ⊢
      match hs : c.startGrid with
      | none => simp [hs] at hr
      | some s =>
        rw [hs] at hr
        by_cases hne : s = ""
        · simp [hne] at hr
        · simp only [ne_eq, hne, not_false_eq_true, if_true, Option.some.injEq] at hr
          subst hr
          rw [lookup_isSome_iff_mem_keys, foldl_addPage_pages]
          have := hc gs s hg hs hne
          simpa using this

/-- C5 witness: the amended theorem applied to the concrete §8 example
documents and to a one-grid container whose `StartGrid` is loaded. -/
theorem c5_witness :
    ((opmlLoadIntoTree exDocFood).pages.lookup "id0").isSome = true ∧
      ((gridsetLoadIntoTree exC5Grid).pages.lookup "p1").isSome = true := by
  constructor
  · exact c5_amended.1 exDocFood "id0" (by decide)
  · refine c5_amended.2 exC5Grid ?_ "p1" (by decide)
    intro gs s h1 h2 h3
    simp only [exC5Grid, Option.some.injEq] at h1 h2
    subst h1
    subst h2
    decide

/-! ## C6 — extraction dedup -/

/-- C6 counterexample: the Outline adapter's `extract_texts` keeps one
entry per occurrence, so a body with the same text on two outlines
returns a duplicate. -/
theorem c6_counterexample :
    opmlExtractTexts exDupDoc = ["A", "A"] ∧ ¬(opmlExtractTexts exDupDoc).Nodup := by
  constructor
  · rfl
  · have h : opmlExtractTexts exDupDoc = ["A", "A"] := rfl
    rw [h]
    decide

/-- C6 amended: the Gridset adapter's `extract_texts` with
`include_context=False` deduplicates (`list(set(...))`), so its result
never holds duplicate strings; the Outline adapter's `extract_texts`
has no such mode and returns one entry per occurrence. -/
theorem c6_amended (grids : Option (List GsGridT)) :
    (gridsetExtractTextsNoContext grids).Nodup := by
  match grids with
  | none => simp [gridsetExtractTextsNoContext]
  | some gs =>
    simp only [gridsetExtractTextsNoContext]
    exact List.nodup_dedup _

/-! ## C7 — Outline save on a malformed anchor chain -/

/-- C7 counterexample: a tree whose root page has zero buttons makes
`save_from_tree` return normally after a debug print — `some none` in
the model: no exception reaches the caller and no file is written, so
the failure is silent rather than surfaced. -/
theorem c7_counterexample : opmlSaveFromTree brokenChainTree = some none := by
  rfl

/-- C7 amended: a malformed Super-Root → Root → Main anchor chain makes
`save_from_tree` return silently with no file written (and conversely, a
well-formed chain always proceeds to the write). -/
theorem c7_amended (t : AACTree) :
    opmlSaveFromTree t = some none ↔ anchorChainBroken t = true := by
  unfold opmlSaveFromTree anchorChainBroken
  repeat' split
  all_goals try simp_all
  all_goals assumption

/-! ## C8 — the language-code mapping -/

/-- C8 counterexample: `"fa"` is absent from the table yet is mapped to
`"ar-SA"`, not to itself, by the right-to-left pre-check. -/
theorem c8_counterexample :
    languageMap.lookup "fa" = none ∧ mapLanguageCode "fa" ≠ "fa" := by
  decide

/-- C8 amended: every table entry maps to its unique region-qualified
code; codes outside both the table and the right-to-left list map to
themselves; right-to-left codes other than `"ar"` (none of which are in
the table) map to the single representative `"ar-SA"`. -/
theorem c8_amended :
    (∀ p ∈ languageMap, isRegionQualified p.2 = true) ∧
    (∀ c v, languageMap.lookup c = some v → mapLanguageCode c = v) ∧
    (∀ c, c ∉ rtlLanguages → languageMap.lookup c = none → mapLanguageCode c = c) ∧
    (∀ c ∈ rtlLanguages, c ≠ "ar" → mapLanguageCode c = "ar-SA") := by
  refine ⟨by decide, ?_, ?_, ?_⟩
  · intro c v h
    unfold mapLanguageCode
    split
    · rename_i hg
      exfalso
      simp only [Bool.and_eq_true, decide_eq_true_eq] at hg
      have hmem : c ∈ rtlLanguages := by simpa using hg.1.1
      have hnone :=
        (by decide : ∀ x ∈ rtlLanguages, x ≠ "ar" → languageMap.lookup x = none) c hmem hg.1.2
      rw [hnone] at h
      cases h
    · rw [h]
      rfl
  · intro c hmem hnone
    unfold mapLanguageCode
    split
    · rename_i hg
      exfalso
      simp only [Bool.and_eq_true, decide_eq_true_eq] at hg
      exact hmem (by simpa using hg.1.1)
    · rw [hnone]
      rfl
  · intro c hmem hne
    unfold mapLanguageCode
    have hne2 : c ≠ "he" := (by decide : ∀ x ∈ rtlLanguages, x ≠ "he") c hmem
    rw [if_pos]
    simp only [Bool.and_eq_true, decide_eq_true_eq]
    refine ⟨⟨?_, hne⟩, hne2⟩
    simpa using hmem

/-- C8 witness: the amended theorem at concrete codes — a table entry, a
plain unknown code, and a right-to-left code. -/
theorem c8_witness :
    isRegionQualified "en-GB" = true ∧ mapLanguageCode "fr" = "fr-FR" ∧
      mapLanguageCode "xx" = "xx" ∧ mapLanguageCode "fa" = "ar-SA" :=
  ⟨c8_amended.1 ("en", "en-GB") (by decide),
   c8_amended.2.1 "fr" "fr-FR" (by decide),
   c8_amended.2.2.1 "xx" (by decide) (by decide),
   c8_amended.2.2.2 "fa" (by decide) (by decide)⟩

/-! ## C10 — vocalization equals label on the Gridset load path -/

/-- C10: every button `GridsetProcessor.load_into_tree` constructs —
grid-cell or word-list — has its vocalization equal to its label (both
are the stripped caption/word text, and the `Jump.To` scan only changes
the type and target). -/
theorem c10_vocalization_eq_label (c : GsContainer) :
    ∀ pr ∈ (gridsetLoadIntoTree c).pages, ∀ b ∈ pr.2.buttons, b.vocalization = b.label := by
  intro pr hpr b hb
  match hg : c.grids with
  | none => simp [gridsetLoadIntoTree, hg] at hpr
  | some gs =>
    simp only [gridsetLoadIntoTree, hg] at hpr
    rw [foldl_addPage_pages] at hpr
    simp only [List.nil_append, List.mem_map] at hpr
    obtain ⟨a, _, rfl⟩ := hpr
    simp only [loadGrid, List.mem_append] at hb
    rcases hb with hb | hb
    · rw [List.mem_filterMap] at hb
      obtain ⟨cell, _, hm⟩ := hb
      match hcon : cell.content with
      | none => simp [mkCellButton, hcon] at hm
      | some content =>
        match hcap : content.caption with
        | none => simp [mkCellButton, hcon, hcap] at hm
        | some cap =>
          by_cases hce : cap = ""
          · simp [mkCellButton, hcon, hcap, hce] at hm
          · simp only [mkCellButton, hcon, hcap, hce, if_false, Option.some.injEq] at hm
            subst hm
            rw [(navFoldl_pres content.commands _).1, (navFoldl_pres content.commands _).2]
    · rw [List.mem_filterMap] at hb
      obtain ⟨it, _, hm⟩ := hb
      match ht : it.text with
      | none => simp [mkWordButton, ht] at hm
      | some t =>
        by_cases hte : t = ""
        · simp [mkWordButton, ht, hte] at hm
        · simp only [mkWordButton, ht, hte, if_false, Option.some.injEq] at hm
          subst hm
          rfl

/-- C10 witness: the theorem at a concrete container and button. -/
theorem c10_witness :
    ({ id := "p1_button_0_0", label := "Hello", vocalization := "Hello",
       type := ButtonType.speak, position := (0, 0), targetPageId := none } : AACButton).vocalization =
      ({ id := "p1_button_0_0", label := "Hello", vocalization := "Hello",
         type := ButtonType.speak, position := (0, 0), targetPageId := none } : AACButton).label :=
  c10_vocalization_eq_label exC10 ("p1", loadGrid "p1" exC10Grid) (by decide) _ (by decide)

/-! ## C9 — the §8 Outline example -/

/-- C9 counterexample: in the loaded tree the page named "Food" (the
Main page) holds the Speak button "Apple" directly; no page named "Food"
holds a Navigate button labeled "Food" (that button sits on the page
named "Root"). -/
theorem c9_counterexample :
    (∃ pr ∈ (opmlLoadIntoTree exDocFood).pages, pr.2.name = "Food") ∧
      ∀ pr ∈ (opmlLoadIntoTree exDocFood).pages, pr.2.name = "Food" →
        ∀ b ∈ pr.2.buttons, ¬(b.type = ButtonType.navigate ∧ b.label = "Food") := by
  decide

/-- C9 amended: loading the example produces a Root page holding one
Navigate button labeled "Food" that leads to the Main page named "Food",
which holds one Speak button labeled "Apple"; saving that tree back
reproduces the two-level `text` nesting. -/
theorem c9_amended :
    (opmlLoadIntoTree exDocFood).pages.lookup "id1" =
      some { id := "id1", name := "Root", gridSize := (1, 1), parentId := some "id0",
             buttons := [{ id := "id4", label := "Food", vocalization := "Food",
                           type := ButtonType.navigate, position := (0, 0),
                           targetPageId := some "id3" }] } ∧
    (opmlLoadIntoTree exDocFood).pages.lookup "id3" =
      some { id := "id3", name := "Food", gridSize := (1, 1), parentId := some "id1",
             buttons := [{ id := "id5", label := "Apple", vocalization := "Apple",
                           type := ButtonType.speak, position := (0, 0),
                           targetPageId := none }] } ∧
    opmlSaveFromTree (opmlLoadIntoTree exDocFood) =
      some (some (Outline.node (some "Food") [Outline.node (some "Apple") []])) :=
  ⟨by decide, by decide, by rfl⟩

/-! ## C1/C2 — `process_files` write behaviour -/

theorem gridModified_exists (g : GsGridP) (tr : List (String × String))
    (h : gridModified g tr = true) :
    ∃ x ∈ gridTexts g, (tr.lookup x).isSome = true := by
  unfold gridModified at h
  simp only [Bool.or_eq_true, List.any_eq_true] at h
  unfold gridTexts
  rcases h with (⟨c, hc, hm⟩ | ⟨f, hf, hm⟩) | ⟨w, hw, hm⟩
  · match c with
    | none => simp [captionModified] at hm
    | some t =>
      simp only [captionModified, Bool.and_eq_true, decide_eq_true_eq] at hm
      refine ⟨pyStrip t, ?_, hm.2⟩
      apply List.mem_append_left
      apply List.mem_append_left
      rw [List.mem_filterMap]
      exact ⟨some t, hc, by simp [hm.1.1, hm.1.2]⟩
  · simp only [fieldModified, Bool.and_eq_true, decide_eq_true_eq] at hm
    refine ⟨extractTranslatable f, ?_, hm.2⟩
    apply List.mem_append_left
    apply List.mem_append_right
    rw [List.mem_filterMap]
    exact ⟨f, hf, by simp [hm.1]⟩
  · match w with
    | none => simp [wordRModified] at hm
    | some t =>
      simp only [wordRModified, Bool.and_eq_true, decide_eq_true_eq] at hm
      refine ⟨pyStrip t, ?_, hm.2⟩
      apply List.mem_append_right
      rw [List.mem_filterMap]
      exact ⟨some t, hw, by simp [hm.1.1, hm.1.2]⟩

theorem settingsModified_exists (s : SettingsX) (tr : List (String × String))
    (h : settingsModified s tr = true) (htl : tr.lookup "target_lang" = none) :
    ∃ x ∈ settingsTexts s, (tr.lookup x).isSome = true := by
  unfold settingsModified at h
  rw [htl] at h
  simp only [Option.isSome_none, Bool.or_false] at h
  match hs : s.description with
  | none => simp [hs] at h
  | some t =>
    simp only [hs, Bool.and_eq_true, decide_eq_true_eq] at h
    exact ⟨pyStrip t, by simp [settingsTexts, hs, h.1], h.2⟩

/-- C1 counterexample: a directory with a (description-free) settings
file and no grids has no translatable string at all, yet the map
containing only `target_lang` triggers the Language-element update,
marks the walk modified, and `process_files` writes and returns a new
container path. -/
theorem c1_counterexample :
    translatableStrings exDirSettingsOnly = [] ∧
      processFiles exDirSettingsOnly (some [("target_lang", "fr")]) =
        some "book_fr.gridset" := by
  decide

/-- C1 amended: when no key of the map matches any translatable string
of the directory, `process_files` writes nothing and returns `none` —
provided the directory has no parseable settings file or the map lacks
`target_lang`; otherwise the Language update alone causes a write. -/
theorem c1_amended (d : GsDir) (tr : List (String × String))
    (hnm : ∀ k ∈ tr.map Prod.fst, k ∉ translatableStrings d)
    (h2 : d.settings = none ∨ tr.lookup "target_lang" = none) :
    processFiles d (some tr) = none := by
  match hg : d.grids with
  | none => simp [processFiles, hg]
  | some gs =>
    have hgmod : gs.any (fun pr => gridModified pr.2 tr) = false := by
      cases hb : gs.any (fun pr => gridModified pr.2 tr)
      · rfl
      · exfalso
        obtain ⟨pr, hpr, hm⟩ := List.any_eq_true.mp hb
        obtain ⟨x, hx, hlk⟩ := gridModified_exists pr.2 tr hm
        apply hnm x ((lookup_isSome_iff_mem_keys tr x).mp hlk)
        unfold translatableStrings
        rw [hg]
        apply List.mem_append_right
        rw [List.mem_flatMap]
        exact ⟨pr, hpr, hx⟩
    have hsmod : settingsStepModified d tr = false := by
      unfold settingsStepModified
      match hset : d.settings with
      | none => rfl
      | some s =>
        rcases h2 with h2 | h2
        · rw [hset] at h2
          cases h2
        · cases hb : settingsModified s tr
          · exact hb
          · exfalso
            obtain ⟨x, hx, hlk⟩ := settingsModified_exists s tr hb h2
            apply hnm x ((lookup_isSome_iff_mem_keys tr x).mp hlk)
            unfold translatableStrings
            rw [hg, hset]
            exact List.mem_append_left _ hx
    simp [processFiles, hg, hsmod, hgmod]

/-- C1 witness: a non-matching map without `target_lang` on a directory
lacking a settings file yields no output. -/
theorem c1_witness :
    processFiles exDirHello (some [("Hola", "X"), ("target_lang", "fr")]) = none :=
  c1_amended exDirHello [("Hola", "X"), ("target_lang", "fr")] (by decide) (Or.inl rfl)

/-- C2 counterexample: `process_files` does not abort a mutating write
when `target_lang` is missing — it substitutes the literal `"unknown"`
and writes the container. -/
theorem c2_counterexample :
    (([("Hello", "Bonjour")] : List (String × String)).lookup "target_lang" = none) ∧
      processFiles exDirHello (some [("Hello", "Bonjour")]) = some "book_unknown.gridset" := by
  decide

/-- C2 amended: `create_translated_file` does abort — a missing (or
empty) `target_lang` on a mutating write yields `none` with no file;
`process_files`, by contrast, either writes nothing or falls back to the
literal `_unknown` suffix. -/
theorem c2_amended :
    (∀ (p : String) (grids : List GsGridT) (tr : List (String × String)),
        tr.lookup "target_lang" = none → createTranslatedFile p grids tr = none) ∧
    (∀ (d : GsDir) (tr : List (String × String)), tr.lookup "target_lang" = none →
        processFiles d (some tr) = none ∨
          processFiles d (some tr) = some (pySplitextBase d.name ++ "_" ++ "unknown" ++ ".gridset")) := by
  constructor
  · intro p grids tr h
    simp [createTranslatedFile, h]
  · intro d tr h
    match hg : d.grids with
    | none => left; simp [processFiles, hg]
    | some gs =>
      by_cases hm : (settingsStepModified d tr || gs.any (fun pr => gridModified pr.2 tr)) = true
      · right
        simp [processFiles, hg, hm, h]
      · left
        rw [Bool.not_eq_true] at hm
        simp [processFiles, hg, hm]

/-- C2 witness: the amendment at concrete inputs. -/
theorem c2_witness :
    createTranslatedFile "book.gridset" [] [] = none ∧
      (processFiles exDirHello (some []) = none ∨
        processFiles exDirHello (some []) =
          some (pySplitextBase exDirHello.name ++ "_" ++ "unknown" ++ ".gridset")) :=
  ⟨c2_amended.1 "book.gridset" [] [] rfl, c2_amended.2 exDirHello [] rfl⟩

/-! ## C4/C3 — the tokenizer and run reconstruction -/

theorem dropWhile_length_le' (p : α → Bool) (l : List α) :
    (l.dropWhile p).length ≤ l.length := by
  induction l with
  | nil => simp [List.dropWhile]
  | cons a l ih =>
    rw [List.dropWhile_cons]
    split
    · exact Nat.le_succ_of_le ih
    · simp

theorem lastIsSpaceTok_concat (ws : List (String × Bool)) (x : String × Bool) :
    lastIsSpaceTok (ws ++ [x]) = (x.1 == " ") := by
  unfold lastIsSpaceTok
  rw [List.getLast?_concat]

theorem foldl_tokStep_eq :
    ∀ (l : List Char) (ws : List (String × Bool)) (cur : String),
      (if (l.foldl tokStep (ws, cur)).2 ≠ "" then
          (l.foldl tokStep (ws, cur)).1 ++ [((l.foldl tokStep (ws, cur)).2, false)]
        else (l.foldl tokStep (ws, cur)).1) =
        ws ++ tokAux cur (lastIsSpaceTok ws) l := by
  intro l
  induction l with
  | nil =>
    intro ws cur
    by_cases h : cur = ""
    · simp [h, tokAux]
    · simp [h, tokAux]
  | cons c cs ih =>
    intro ws cur
    rw [List.foldl_cons]
    by_cases hsp : isSpaceChar c
    · by_cases hc : cur = ""
      · subst hc
        by_cases hl : lastIsSpaceTok ws
        · have hstep : tokStep (ws, "") c = (ws, "") := by
            simp [tokStep, hsp, hl]
          rw [hstep, ih, tokAux, if_pos hsp]
          simp [hl]
        · have hstep : tokStep (ws, "") c = (ws ++ [(" ", true)], "") := by
            simp [tokStep, hsp, hl]
          rw [hstep, ih, tokAux, if_pos hsp]
          simp [hl, lastIsSpaceTok_concat, List.append_assoc]
      · have hstep : tokStep (ws, cur) c = (ws ++ [(cur, false), (" ", true)], "") := by
          simp [tokStep, hsp, hc]
        rw [hstep, ih, tokAux, if_pos hsp]
        have : ws ++ [(cur, false), (" ", true)] = (ws ++ [(cur, false)]) ++ [(" ", true)] := by
          simp
        rw [this, lastIsSpaceTok_concat]
        simp [hc, List.append_assoc]
    · have hstep : tokStep (ws, cur) c = (ws, cur.push c) := by
        simp [tokStep, hsp]
      rw [hstep, ih, tokAux, if_neg hsp]

theorem string_data_ne_nil {s : String} (h : s ≠ "") : s.data ≠ [] := by
  intro hd
  apply h
  cases s
  simp_all

theorem string_eta (s : String) : (⟨s.data⟩ : String) = s := by
  cases s
  rfl

/-- A nonempty whitespace-free prefix followed by nothing or whitespace
is one word token. -/
theorem specTokens_word_prepend (d : List Char) (hne : d ≠ [])
    (hd : d.all (fun c => !isSpaceChar c) = true) (rest : List Char)
    (hr : rest.head?.all isSpaceChar = true) :
    specTokens (d ++ rest) = (⟨d⟩, false) :: specTokens rest := by
  match d with
  | [] => exact absurd rfl hne
  | a :: d' =>
    simp only [List.all_cons, Bool.and_eq_true, Bool.not_eq_true'] at hd
    have hall : ∀ x ∈ d', (fun x => !isSpaceChar x) x = true := by
      intro x hx
      have := List.all_eq_true.mp hd.2 x hx
      simpa using this
    have htake : (d' ++ rest).takeWhile (fun x => !isSpaceChar x) = d' := by
      rw [List.takeWhile_append_of_pos hall]
      match rest with
      | [] => simp
      | r :: rest' =>
        simp only [List.head?_cons, Option.all] at hr
        rw [List.takeWhile_cons_of_neg (by simp [hr])]
        simp
    have hdrop : (d' ++ rest).dropWhile (fun x => !isSpaceChar x) = rest := by
      rw [List.dropWhile_append_of_pos hall]
      match rest with
      | [] => simp
      | r :: rest' =>
        simp only [List.head?_cons, Option.all] at hr
        rw [List.dropWhile_cons_of_neg (by simp [hr])]
    rw [List.cons_append, specTokens, if_neg (by simp [hd.1]), htake, hdrop]

/-- `tokAux` from pending word `cur` and flag `b` is `specTokens`, with
the pending word glued on the front and a leading whitespace run
absorbed when `b` is set. -/
theorem tokAux_eq_specTokens :
    ∀ (l : List Char) (cur : String) (b : Bool),
      cur.data.all (fun c => !isSpaceChar c) = true →
      tokAux cur b l =
        (if cur = "" then
          (if b then specTokens (l.dropWhile isSpaceChar) else specTokens l)
        else specTokens (cur.data ++ l)) := by
  intro l
  induction l with
  | nil =>
    intro cur b hcur
    by_cases hc : cur = ""
    · subst hc
      simp [tokAux, specTokens]
    · rw [tokAux, if_pos hc, if_neg hc,
        specTokens_word_prepend cur.data (string_data_ne_nil hc) hcur [] (by simp),
        string_eta]
      simp [specTokens]
  | cons c cs ih =>
    intro cur b hcur
    by_cases hsp : isSpaceChar c
    · by_cases hc : cur = ""
      · subst hc
        cases b
        · rw [tokAux, if_pos hsp]
          simp only [if_pos rfl, Bool.false_eq_true, if_false, reduceIte]
          rw [ih "" true (by simp), specTokens, if_pos hsp]
          simp
        · rw [tokAux, if_pos hsp]
          simp only [if_pos rfl, reduceIte]
          rw [ih "" true (by simp)]
          simp [List.dropWhile_cons_of_pos hsp]
      · rw [tokAux, if_pos hsp, if_pos hc, if_neg hc]
        rw [ih "" true (by simp)]
        rw [specTokens_word_prepend cur.data (string_data_ne_nil hc) hcur (c :: cs) (by simp [hsp]),
          string_eta, specTokens, if_pos hsp]
        simp
    · rw [tokAux, if_neg hsp]
      rw [ih (cur.push c) b (by simp [String.data_push, List.all_append, hcur]; simpa using hsp)]
      have hpush : (cur.push c).data = cur.data ++ [c] := String.data_push cur c
      have hpne : cur.push c ≠ "" := by
        intro h
        have := congrArg String.data h
        rw [hpush] at this
        simp at this
      rw [if_neg hpne, hpush, List.append_assoc]
      by_cases hc : cur = ""
      · rw [if_pos hc]
        have : cur.data = [] := by
          subst hc
          rfl
        rw [this]
        simp only [List.nil_append, List.singleton_append]
        have hdw : List.dropWhile isSpaceChar (c :: cs) = c :: cs :=
          List.dropWhile_cons_of_neg (by simpa using hsp)
        cases b
        · simp
        · simp [hdw]
      · rw [if_neg hc]
        simp

/-- C4 core: the Python tokenizer computes exactly the maximal-run
tokens. -/
theorem tokenizePy_eq_specTokens (s : String) : tokenizePy s = specTokens s.data := by
  have h := foldl_tokStep_eq s.data [] ""
  unfold tokenizePy
  simp only []
  rw [h]
  have hfalse : lastIsSpaceTok ([] : List (String × Bool)) = false := rfl
  rw [List.nil_append, hfalse, tokAux_eq_specTokens s.data "" false (by simp)]
  simp

theorem dropWhile_head_not (p : α → Bool) (l : List α) :
    (l.dropWhile p).head?.all (fun c => !p c) = true := by
  induction l with
  | nil => simp [List.dropWhile]
  | cons a l ih =>
    rw [List.dropWhile_cons]
    split
    · exact ih
    · rename_i h
      simp_all [Option.all]

theorem specTokens_head_word (l : List Char) (h : l.head?.all (fun c => !isSpaceChar c) = true) :
    (specTokens l).head?.all (fun t => !t.2) = true := by
  match l with
  | [] => simp [specTokens, Option.all]
  | c :: cs =>
    simp only [List.head?_cons, Option.all] at h
    rw [specTokens, if_neg (by simp_all)]
    simp [Option.all]

theorem noAdjSpace_specTokens : ∀ (n : Nat) (l : List Char), l.length ≤ n →
    noAdjSpace (specTokens l) = true := by
  intro n
  induction n with
  | zero =>
    intro l hl
    match l with
    | [] => simp [specTokens, noAdjSpace]
    | c :: cs => simp at hl
  | succ n ih =>
    intro l hl
    match l with
    | [] => simp [specTokens, noAdjSpace]
    | c :: cs =>
      by_cases hsp : isSpaceChar c
      · rw [specTokens, if_pos hsp]
        have hlen : (cs.dropWhile isSpaceChar).length ≤ n :=
          Nat.le_of_succ_le_succ (Nat.le_trans (Nat.succ_le_succ (dropWhile_length_le' _ _)) hl)
        have hrec := ih _ hlen
        have hhead : (specTokens (cs.dropWhile isSpaceChar)).head?.all (fun t => !t.2) = true := by
          apply specTokens_head_word
          have := dropWhile_head_not isSpaceChar cs
          match hdw : (cs.dropWhile isSpaceChar).head? with
          | none => simp [Option.all]
          | some a =>
            rw [hdw] at this
            simpa [Option.all] using this
        match hst : specTokens (cs.dropWhile isSpaceChar) with
        | [] => simp [noAdjSpace]
        | t :: ts =>
          rw [hst] at hrec hhead
          simp only [List.head?_cons, Option.all] at hhead
          rw [noAdjSpace]
          simp [hhead, hrec]
      · rw [specTokens, if_neg hsp]
        have hlen : (cs.dropWhile (fun x => !isSpaceChar x)).length ≤ n :=
          Nat.le_of_succ_le_succ (Nat.le_trans (Nat.succ_le_succ (dropWhile_length_le' _ _)) hl)
        have hrec := ih _ hlen
        match hst : specTokens (cs.dropWhile (fun x => !isSpaceChar x)) with
        | [] => simp [noAdjSpace]
        | t :: ts =>
          rw [hst] at hrec
          rw [noAdjSpace]
          simp [hrec]

theorem pyJoinSpace_cons_data (w w' : String) (ws : List String) :
    (pyJoinSpace (w :: w' :: ws)).data = w.data ++ ' ' :: (pyJoinSpace (w' :: ws)).data := by
  show (w ++ " " ++ pyJoinSpace (w' :: ws)).data = _
  have hsd : (" " : String).data = [' '] := by decide
  rw [String.data_append, String.data_append, hsd, List.append_assoc, List.singleton_append]

/-- The join of a cons starts with the first word's characters. -/
theorem pyJoinSpace_cons_starts (w : String) (ws : List String) :
    ∃ suffix, (pyJoinSpace (w :: ws)).data = w.data ++ suffix := by
  match ws with
  | [] => exact ⟨[], by simp [pyJoinSpace]⟩
  | w' :: rest => exact ⟨' ' :: (pyJoinSpace (w' :: rest)).data, pyJoinSpace_cons_data w w' rest⟩

/-- Token count of the join of non-empty space-free words. -/
theorem specTokens_join_length :
    ∀ (ws : List String), ws ≠ [] →
      (∀ w ∈ ws, w ≠ "" ∧ w.data.all (fun c => !isSpaceChar c) = true) →
      (specTokens (pyJoinSpace ws).data).length = 2 * ws.length - 1 := by
  intro ws
  induction ws with
  | nil => intro h; exact absurd rfl h
  | cons w ws ih =>
    intro _ hws
    have hw := hws w (by simp)
    match ws with
    | [] =>
      show (specTokens (pyJoinSpace [w]).data).length = _
      have : pyJoinSpace [w] = w := rfl
      rw [this, ← List.append_nil w.data,
        specTokens_word_prepend w.data (string_data_ne_nil hw.1) hw.2 [] (by simp)]
      simp [specTokens]
    | w' :: rest =>
      rw [pyJoinSpace_cons_data,
        specTokens_word_prepend w.data (string_data_ne_nil hw.1) hw.2
          (' ' :: (pyJoinSpace (w' :: rest)).data) (by simp [isSpaceChar]),
        specTokens, if_pos (by simp [isSpaceChar])]
      have hdw : List.dropWhile isSpaceChar (pyJoinSpace (w' :: rest)).data =
          (pyJoinSpace (w' :: rest)).data := by
        obtain ⟨suffix, hsuf⟩ := pyJoinSpace_cons_starts w' rest
        have hw' := hws w' (by simp)
        match hd : w'.data with
        | [] => exact absurd (by cases w'; simp_all) hw'.1
        | a :: d' =>
          rw [hsuf, hd, List.cons_append]
          apply List.dropWhile_cons_of_neg
          have := hw'.2
          rw [hd] at this
          simp only [List.all_cons, Bool.and_eq_true] at this
          simpa using this.1
      rw [hdw]
      have hrec := ih (by simp) (fun x hx => hws x (by simp [hx]))
      simp only [List.length_cons]
      rw [hrec]
      simp only [List.length_cons]
      omega

/-- Facts from alternation: the non-empty parts are the word parts, the
parts count is `2k − 1` for `k` words, and each word is non-empty and
space-free. -/
theorem altParts_facts : ∀ (parts : List (String × Bool)), altParts parts = true →
    parts.length = 2 * ((parts.filter (fun p => p.1 ≠ "")).map Prod.fst).length - 1 ∧
    (∀ w ∈ (parts.filter (fun p => p.1 ≠ "")).map Prod.fst,
      w ≠ "" ∧ w.data.all (fun c => !isSpaceChar c) = true) ∧
    (parts ≠ [] → (parts.filter (fun p => p.1 ≠ "")).map Prod.fst ≠ []) := by
  intro parts
  induction parts using altParts.induct with
  | case1 => intro _; simp
  | case2 p =>
    intro h
    simp only [altParts, isWordPart, Bool.and_eq_true, decide_eq_true_eq,
      Bool.not_eq_true'] at h
    have hfil : List.filter (fun p => decide (p.1 ≠ "")) [p] = [p] := by
      simp [List.filter, h.1.2]
    simp only [hfil, List.map_cons, List.map_nil]
    refine ⟨by simp, ?_, by simp⟩
    intro w hw
    simp only [List.mem_singleton] at hw
    subst hw
    exact ⟨h.1.2, h.2⟩
  | case3 p q rest ih =>
    intro h
    simp only [altParts, Bool.and_eq_true] at h
    obtain ⟨⟨⟨hp, hq⟩, hrest_ne⟩, hrest⟩ := h
    have ihr := ih hrest
    simp only [isWordPart, Bool.and_eq_true, decide_eq_true_eq] at hp
    simp only [isSpacePart, Bool.and_eq_true, beq_iff_eq] at hq
    have hfil : List.filter (fun p => decide (p.1 ≠ "")) (p :: q :: rest) =
        p :: List.filter (fun p => decide (p.1 ≠ "")) rest := by
      rw [List.filter_cons_of_pos (by simp [hp.1.2]),
        List.filter_cons_of_neg (by simp [hq.2])]
    simp only [hfil, List.map_cons, List.length_cons]
    have hrne : rest ≠ [] := by
      intro hcon
      rw [hcon] at hrest_ne
      simp at hrest_ne
    refine ⟨?_, ?_, by simp⟩
    · have h1 := ihr.1
      have h2 := ihr.2.2 hrne
      match hm : (rest.filter (fun p => p.1 ≠ "")).map Prod.fst with
      | [] => exact absurd hm h2
      | v :: vs =>
        rw [hm] at h1
        simp only [List.length_cons] at h1 ⊢
        omega
    · intro w hw
      simp only [List.mem_cons] at hw
      rcases hw with hw | hw
      · subst hw
        exact ⟨hp.1.2, hp.2⟩
      · exact ihr.2.1 w hw

theorem extractParts_map_rebuild_length (md : List (List (String × String))) :
    ∀ (l : List (Nat × (String × Bool))),
      (extractParts (l.map (fun p => rebuildS md p.1 p.2))).length = l.length := by
  intro l
  induction l with
  | nil => rfl
  | cons x rest ih =>
    simp only [List.map_cons, extractParts, List.length_append, ih]
    simp [partsOfS, rebuildS]
    omega

theorem extractParts_update_length (t : String) (md : List (List (String × String))) :
    (extractParts (updateElementWithTranslation t md)).length = (tokenizePy t).length := by
  unfold updateElementWithTranslation
  rw [extractParts_map_rebuild_length]
  exact List.enum_length

/-- C4: the reinjection tokenizer turns every maximal run of non-space
characters into exactly one word token and every maximal whitespace run
into exactly one space token (it equals the run-description `specTokens`),
and its output never holds two adjacent space tokens. -/
theorem c4_tokenizer_maximal_runs (s : String) :
    tokenizePy s = specTokens s.data ∧ noAdjSpace (tokenizePy s) = true := by
  refine ⟨tokenizePy_eq_specTokens s, ?_⟩
  rw [tokenizePy_eq_specTokens s]
  exact noAdjSpace_specTokens s.data.length s.data (Nat.le_refl _)

/-- C3 counterexample: a field whose single run is `"a b"` has no
internal double-space anywhere, yet self-translation rebuilds it with
three tokens in place of the original single part. -/
theorem c3_counterexample :
    noInternalDoubleSpaces (extractParts exSingleRunField) = true ∧
      (extractParts (updateElementWithTranslation (extractTranslatable exSingleRunField)
          (extractMetadata exSingleRunField))).length ≠
        (extractParts exSingleRunField).length := by
  decide

/-- C3 amended: when the original parts sequence strictly alternates
non-empty space-free word parts and space parts, beginning and ending
with a word part, reinjecting the identical joined string rebuilds the
field with exactly the original parts count. -/
theorem c3_run_reconstruction_alternating (f : FieldE)
    (h : altParts (extractParts f) = true) :
    (extractParts (updateElementWithTranslation (extractTranslatable f)
        (extractMetadata f))).length = (extractParts f).length := by
  rw [extractParts_update_length, tokenizePy_eq_specTokens]
  have hfacts := altParts_facts (extractParts f) h
  match hp : extractParts f with
  | [] =>
    have : extractTranslatable f = "" := by
      unfold extractTranslatable
      rw [hp]
      rfl
    rw [this]
    simp [specTokens]
  | p :: ps =>
    rw [hp] at hfacts
    have hne := hfacts.2.2 (by simp)
    have hjoin := specTokens_join_length
      (((p :: ps).filter (fun p => p.1 ≠ "")).map Prod.fst) hne hfacts.2.1
    have htr : extractTranslatable f =
        pyJoinSpace (((p :: ps).filter (fun p => p.1 ≠ "")).map Prod.fst) := by
      unfold extractTranslatable
      rw [hp]
    rw [htr, hjoin, hfacts.1]

/-- C3 witness: the amended theorem at a concrete alternating field. -/
theorem c3_witness :
    altParts (extractParts exAltField) = true ∧
      (extractParts (updateElementWithTranslation (extractTranslatable exAltField)
          (extractMetadata exAltField))).length = (extractParts exAltField).length :=
  ⟨by decide, c3_run_reconstruction_alternating exAltField (by decide)⟩
